import Mathlib

/-!
Verification of the PythonArmoury repository against its specification.

Each Python function named in the claims is shallowly embedded as an
executable Lean function.  Python machine behaviour is made explicit:
exceptions become `Except PyErr`, `None` becomes `Option`, truthiness is
spelled out, and known CPython runtime behaviours (such as `None < 0`
raising `TypeError`, or `open(path, "rb", encoding=...)` raising
`ValueError`) are modelled where the embedded code exercises them.
-/

/-- The Python exception kinds raised by the embedded code, each carrying
its message string. -/
inductive PyErr where
  | valueError (msg : String)
  | typeError (msg : String)
  | fileNotFoundError (msg : String)
  | runtimeError (msg : String)
  | notImplementedError (msg : String)
  | attributeError (msg : String)
deriving Repr, DecidableEq

/-- Python truthiness of an optional string: `None` and `""` are falsy. -/
def strTruthy : Option String → Bool
  | none => false
  | some s => !s.isEmpty

/-- Python truthiness of an optional list: `None` and `[]` are falsy. -/
def listTruthy : Option (List String) → Bool
  | none => false
  | some l => !l.isEmpty

/-- Python `v or d` for an optional string `v` and a string default `d`:
the default is used when `v` is `None` or empty. -/
def pyOrStrD (v : Option String) (d : String) : String :=
  match v with
  | none => d
  | some s => if s.isEmpty then d else s

/-- Python `str.startswith`: the characters of `pre` are a prefix of the
characters of `s`. -/
def pyStartsWith (s pre : String) : Bool :=
  pre.data.isPrefixOf s.data

namespace RobocopySynchronizer

/-- Embeds the tail of `RobocopySynchronizer.robocopy_mirror`
(`robocopy_synchronizer.py` lines 147-154): after the `robocopy`
subprocess has run and produced exit code `returncode`, the code raises
`RuntimeError(f"Robocopy mirror sync failed: {returncode}")` when the
code is `>= 8`, and otherwise returns `0`. -/
def robocopy_mirror_result (returncode : Int) : Except PyErr Int :=
  if 8 ≤ returncode then
    .error (.runtimeError ("Robocopy mirror sync failed: " ++ toString returncode))
  else
    .ok 0

end RobocopySynchronizer

/-- C6: for every exit code `c` of the robocopy subprocess,
`robocopy_mirror` raises a `RuntimeError` whose message contains the
numeric code iff `c ≥ 8`, and returns successfully (result `0`) for
every `c` in `0..7`. -/
theorem c6_robocopy_exit_code_policy (c : Int) :
    ((∃ msg, RobocopySynchronizer.robocopy_mirror_result c = .error (.runtimeError msg) ∧
        ∃ s t, msg = s ++ toString c ++ t) ↔ 8 ≤ c) ∧
    (0 ≤ c → c ≤ 7 → RobocopySynchronizer.robocopy_mirror_result c = .ok 0) := by
  refine ⟨⟨?_, ?_⟩, ?_⟩
  · rintro ⟨msg, hmsg, -⟩
    by_contra h
    simp [RobocopySynchronizer.robocopy_mirror_result, h] at hmsg
  · intro h
    exact ⟨"Robocopy mirror sync failed: " ++ toString c,
      by simp [RobocopySynchronizer.robocopy_mirror_result, h],
      "Robocopy mirror sync failed: ", "", by simp⟩
  · intro h0 h7
    have h : ¬ (8 : Int) ≤ c := by omega
    simp [RobocopySynchronizer.robocopy_mirror_result, h]

/-- Witness for C6: the policy evaluated at the boundary codes 7 and 8. -/
theorem c6_robocopy_exit_code_policy_witness :
    RobocopySynchronizer.robocopy_mirror_result 7 = .ok 0 ∧
    (∃ msg, RobocopySynchronizer.robocopy_mirror_result 8 = .error (.runtimeError msg) ∧
      ∃ s t, msg = s ++ toString (8 : Int) ++ t) :=
  ⟨(c6_robocopy_exit_code_policy 7).2 (by decide) (by decide),
   ((c6_robocopy_exit_code_policy 8).1).mpr (by decide)⟩

namespace GitRepo

/-- The fields of a `GitRepo` instance used by `clone`
(`git_repo.py` lines 33-38); `None` credentials become `none`. -/
structure State where
  remote_repo_url : String
  username : Option String
  password : Option String
deriving Repr, DecidableEq

/-- Embeds `GitRepo._construct_remote_repo_url_with_auth_info`
(`git_repo.py` lines 40-54).  With truthy credentials it inserts
`user:password@` after the `http://` or `https://` scheme (Python
`str.replace` replaces every occurrence, modelled by `String.replace`)
and raises `RuntimeError` for any other scheme.  With a missing or empty
username or password the source merely *constructs*
`RuntimeError(...)` on line 54 without a `raise` statement, so the
function logs and implicitly returns `None`; the embedding therefore
returns `.ok none` on that path. -/
def construct_remote_repo_url_with_auth_info (st : State) : Except PyErr (Option String) :=
  if strTruthy st.username && strTruthy st.password then
    let u := st.username.getD ""
    let p := st.password.getD ""
    let url := st.remote_repo_url
    if pyStartsWith url "http://" then
      .ok (some (url.replace "http://" ("http://" ++ u ++ ":" ++ p ++ "@")))
    else if pyStartsWith url "https://" then
      .ok (some (url.replace "https://" ("https://" ++ u ++ ":" ++ p ++ "@")))
    else
      .error (.runtimeError ("Unsupported repo protocol for authentication: " ++ url))
  else
    .ok none

/-- The observable outcome of `GitRepo.clone` (`git_repo.py` lines
56-75) up to the point where `git.Repo.clone_from` is invoked: either an
exception from the URL-construction step propagates first, or a clone is
attempted with the URL value the construction step returned. -/
inductive CloneOutcome where
  | raisedBeforeClone (e : PyErr)
  | cloneAttempted (url : Option String)
deriving Repr, DecidableEq

/-- Embeds the control flow of `GitRepo.clone`: it first calls
`_construct_remote_repo_url_with_auth_info` and then passes whatever
that returned straight to `git.Repo.clone_from`. -/
def clone (st : State) : CloneOutcome :=
  match construct_remote_repo_url_with_auth_info st with
  | .error e => .raisedBeforeClone e
  | .ok u => .cloneAttempted u

end GitRepo

/-- C8 (code bug, failing input): with a well-formed `https` remote URL
but a missing password, `_construct_remote_repo_url_with_auth_info`
raises nothing (the `RuntimeError` on line 54 is constructed but never
raised) and returns `None`, so `clone` goes on to attempt the clone with
a `None` URL instead of raising a configuration error first.  The
unsupported-scheme half of the claim does hold, shown by the last
conjunct. -/
theorem c8_clone_missing_credentials_not_raised :
    GitRepo.construct_remote_repo_url_with_auth_info
      ⟨"https://example.com/repo.git", some "user", none⟩ = .ok none ∧
    GitRepo.clone ⟨"https://example.com/repo.git", some "user", none⟩ =
      .cloneAttempted none ∧
    GitRepo.clone ⟨"ssh://example.com/repo.git", some "user", some "pw"⟩ =
      .raisedBeforeClone
        (.runtimeError "Unsupported repo protocol for authentication: ssh://example.com/repo.git") := by
  refine ⟨rfl, rfl, by decide⟩

/-- The ordering used by the Python sorts in the claims: by
modification time ascending.  Python `sorted`/`list.sort` are stable;
`List.insertionSort` with this non-strict relation is the matching
stable sort. -/
def timeLE (a b : String × Int) : Prop := a.2 ≤ b.2

instance : DecidableRel timeLE := fun a b => inferInstanceAs (Decidable (a.2 ≤ b.2))

instance : IsTotal (String × Int) timeLE := ⟨fun a b => Int.le_total a.2 b.2⟩

instance : IsTrans (String × Int) timeLE := ⟨fun _ _ _ hab hbc => le_trans hab hbc⟩

namespace DataBackup

/-- Embeds the `DataBackupParam` dataclass (`data_backup.py` lines
16-23); `backup_file_name_pfx` is the source field
`backup_file_name_prefix`.  Fields whose dataclass default is `None`
are `Option`s. -/
structure Param where
  src_path : String
  dst_dir_path : String
  backup_file_name_pfx : Option String
  max_backups_num : Option Int
  compress_fmt : String
  compress_level : Option Int
deriving Repr, DecidableEq

/-- Embeds `DataBackup.check_params` (`data_backup.py` lines 40-44).
`src_exists` stands for `os.path.exists(self._src_path)`.  When
`max_backups_num` is `None`, the comparison `self._max_backups_num < 0`
is CPython `None < 0`, which raises
`TypeError: < not supported between instances of NoneType and int`. -/
def check_params (p : Param) (src_exists : Bool) : Except PyErr Unit :=
  if !src_exists then
    .error (.fileNotFoundError ("Source not exist: " ++ p.src_path))
  else
    match p.max_backups_num with
    | none => .error (.typeError "< not supported between instances of NoneType and int")
    | some n =>
      if n < 0 then .error (.valueError ("Invalid max backups num: " ++ toString n))
      else .ok ()

/-- The destination directory listing: one entry per file, as
`(file name, modification time)`.  Modification times are whole seconds
(`Int`), standing for the float timestamps of `os.path.getmtime`. -/
abbrev DirListing := List (String × Int)

/-- Embeds `DataBackup.construct_backup_name_prefix` (`data_backup.py`
lines 52-61): the configured prefix when non-empty
(`BaseUtil.is_empty` treats `None` and `""` as empty), else
`os.path.basename(src_path) + "_backup_"`; `src_basename` stands for
that basename. -/
def construct_backup_name_pfx (p : Param) (src_basename : String) : String :=
  match p.backup_file_name_pfx with
  | some s => if s.isEmpty then src_basename ++ "_backup_" else s
  | none => src_basename ++ "_backup_"

/-- Embeds `DataBackup.construct_backup_name` (`data_backup.py` lines
63-72); `stamp` stands for `datetime.now().strftime("%Y%m%d_%H%M%S")`. -/
def construct_backup_name (p : Param) (src_basename stamp : String) : String :=
  construct_backup_name_pfx p src_basename ++ stamp ++ "." ++ p.compress_fmt

/-- One `FsUtil.remove_path` call on the destination listing: the entry
with that file name is removed. -/
def remove_path (dir : DirListing) (path : String) : DirListing :=
  dir.filter (fun e => e.1 ≠ path)

/-- Embeds the effect of `DataBackup.do_backup` (`data_backup.py` lines
74-85) on the destination listing: `CompressUtil.compress` opens the
output path with mode `w`, truncating any file of the same name, and
writes the new archive, whose modification time is the current time
`now`. -/
def do_backup_listing (dir : DirListing) (name : String) (now : Int) : DirListing :=
  remove_path dir name ++ [(name, now)]

/-- The `entries.startswith(prefix)` test of `list_backups`. -/
def has_pfx (pfx : String) : String × Int → Bool :=
  fun e => pyStartsWith e.1 pfx

/-- Embeds `DataBackup.list_backups` (`data_backup.py` lines 90-103):
the entries of the destination directory whose name starts with the
configured prefix, sorted by modification time ascending (Python
`sorted` is stable, as is `List.insertionSort`), keeping only the
names. -/
def list_backups (dir : DirListing) (pfx : String) : List String :=
  (List.insertionSort timeLE (dir.filter (has_pfx pfx))).map Prod.fst

/-- Embeds `DataBackup.rotate` (`data_backup.py` lines 105-113): with no
retention count configured it deletes nothing; otherwise it removes the
first `len(backups) - max_backups_num` entries of the
sorted-by-modification-time backup list, when that is positive. -/
def rotate (maxN : Option Int) (dir : DirListing) (pfx : String) : DirListing :=
  match maxN with
  | none => dir
  | some n =>
    let backups := list_backups dir pfx
    if (backups.length : Int) ≤ n then dir
    else
      let delNames := backups.take ((backups.length : Int) - n).toNat
      delNames.foldl remove_path dir

/-- Embeds `CompressUtil.check_compressed_file` as used by
`DataBackup.check_backup` (`data_backup.py` lines 87-88,
`compress_util.py` lines 20-24): the zip integrity scan of the archive
that `do_backup` just wrote succeeds, and any other configured format
raises `NotImplementedError`. -/
def check_backup (p : Param) : Except PyErr Unit :=
  if p.compress_fmt = "zip" then .ok ()
  else .error (.notImplementedError ("Not implemented compressed format: " ++ p.compress_fmt))

/-- Embeds `DataBackup.run` (`data_backup.py` lines 118-126) acting on
the destination listing: `check_params`, `prepare_env` (directory
creation, no listing effect), the no-op `pre_backup` hook, `do_backup`,
`check_backup`, `rotate`, the no-op `post_backup` hook, returning the
final listing together with the new backup name. -/
def run (p : Param) (src_exists : Bool) (dir : DirListing)
    (src_basename stamp : String) (now : Int) : Except PyErr (DirListing × String) := do
  let _ ← check_params p src_exists
  let name := construct_backup_name p src_basename stamp
  let dir1 := do_backup_listing dir name now
  let _ ← check_backup p
  let dir2 := rotate p.max_backups_num dir1 (construct_backup_name_pfx p src_basename)
  .ok (dir2, name)

end DataBackup

/-- C9 (code bug, failing input): for a parameter set whose
`max_backups_num` is unset and whose source path exists,
`check_params` does not succeed as the claim states: the comparison
`None < 0` raises `TypeError`, so every `run` fails before backing up.
The rotation half of the claim is true: `rotate` with an unset
retention count deletes nothing, for every destination listing. -/
theorem c9_unset_retention_check_params_type_error :
    DataBackup.check_params ⟨"srv/data", "backups", none, none, "zip", none⟩ true =
      .error (.typeError "< not supported between instances of NoneType and int") ∧
    (DataBackup.run ⟨"srv/data", "backups", none, none, "zip", none⟩ true
        [("data_backup_20240101_000000.zip", 10)] "data" "20240102_000000" 20).isOk = false ∧
    ∀ (dir : DataBackup.DirListing) (pfx : String), DataBackup.rotate none dir pfx = dir :=
  ⟨rfl, rfl, fun _ _ => rfl⟩

namespace VerFileConstructor

/-- Embeds the `VersionStruct` dataclass (`version_constractor.py` lines
14-24); every field defaults to `None`. -/
structure VersionStruct where
  file_desc : Option String
  file_ver : Option String
  inter_name : Option String
  legal_copyright : Option String
  original_filename : Option String
  product_name : Option String
  product_ver : Option String
  language : Option String
  legal_trademarks : Option String
deriving Repr, DecidableEq

/-- Embeds `VerFileConstructor._fill_ver_info` (`version_constractor.py`
lines 64-82) as a pure state transformer: each `is None` check either
raises `ValueError` or substitutes the documented default, in source
order. -/
def fill_ver_info (v : VersionStruct) : Except PyErr VersionStruct :=
  match v.file_desc with
  | none => .error (.valueError "Null file description.")
  | some d =>
    let file_ver := v.file_ver.getD "1.0.0.0"
    let inter_name := v.inter_name.getD d
    let legal_copyright :=
      v.legal_copyright.getD "© Xiamen Tianma Display Technology. All rights reserved."
    let original_filename := v.original_filename.getD (d.replace " " "_" ++ ".exe")
    let product_name := v.product_name.getD d
    match v.product_ver with
    | none => .error (.valueError "Null product version.")
    | some pv =>
      let language := v.language.getD "Language Neutral"
      let legal_trademarks := v.legal_trademarks.getD "Xiamen Tianma Display Technology Co., Ltd."
      .ok ⟨some d, some file_ver, some inter_name, some legal_copyright,
           some original_filename, some product_name, some pv, some language,
           some legal_trademarks⟩

end VerFileConstructor

namespace FileDetailsHandler

/-- Embeds the `FileDetails` dataclass (`file_details.py` lines 14-24);
every field defaults to `None`. -/
structure FileDetails where
  file_desc : Option String
  file_ver : Option String
  internal_name : Option String
  legal_copyright : Option String
  original_file_name : Option String
  product_name : Option String
  product_version : Option String
  language : Option String
  legal_trademarks : Option String
deriving Repr, DecidableEq

/-- Embeds `FileDetailsHandler.fill_version_data` (`file_details.py`
lines 61-73): `file_desc`, `legal_copyright`, `product_version` and
`legal_trademarks` are required (checked with `is None`, raising
`ValueError`), while `file_ver`, `internal_name`, `product_name` and
`language` are defaulted with Python `or` (so `None` and `""` are both
replaced), in source order. -/
def fill_version_data (v : FileDetails) : Except PyErr FileDetails :=
  match v.file_desc with
  | none => .error (.valueError "File description is required.")
  | some d =>
    let file_ver := pyOrStrD v.file_ver "1.0.0.0"
    let internal_name := pyOrStrD v.internal_name d
    match v.legal_copyright with
    | none => .error (.valueError "Legal copyright is required.")
    | some lc =>
      let product_name := pyOrStrD v.product_name d
      match v.product_version with
      | none => .error (.valueError "Product version is required.")
      | some pv =>
        let language := pyOrStrD v.language "Language Neutral"
        match v.legal_trademarks with
        | none => .error (.valueError "Legal trademarks is required.")
        | some lt =>
          .ok ⟨some d, some file_ver, some internal_name, some lc, v.original_file_name,
               some product_name, some pv, some language, some lt⟩

end FileDetailsHandler

/-- C7 (counterexample): in the `FileDetailsHandler` filling step, a
descriptor carrying only `file_desc` and `product_version` does not
yield the defaulted fields as the claim states: `fill_version_data`
raises `ValueError` because `legal_copyright` is also required there. -/
theorem c7_file_details_two_fields_raises :
    FileDetailsHandler.fill_version_data
      ⟨some "My App", none, none, none, none, none, some "1.2", none, none⟩ =
      .error (.valueError "Legal copyright is required.") := rfl

/-- C7 (amended): with only `file_desc` and `product_ver` set,
`VerFileConstructor._fill_ver_info` yields `file_ver = "1.0.0.0"`,
`inter_name = file_desc` and `language = "Language Neutral"` (with its
other documented defaults), while `FileDetailsHandler.fill_version_data`
raises a configuration error on the same input because it also requires
`legal_copyright` and `legal_trademarks`; omitting `file_desc` or the
product version raises a configuration error in both filling steps. -/
theorem c7_version_fill_defaults_and_required :
    (∀ d pv, VerFileConstructor.fill_ver_info
        ⟨some d, none, none, none, none, none, some pv, none, none⟩ =
      .ok ⟨some d, some "1.0.0.0", some d,
           some "© Xiamen Tianma Display Technology. All rights reserved.",
           some (d.replace " " "_" ++ ".exe"), some d, some pv, some "Language Neutral",
           some "Xiamen Tianma Display Technology Co., Ltd."⟩) ∧
    (∀ v : VerFileConstructor.VersionStruct, v.file_desc = none →
        VerFileConstructor.fill_ver_info v = .error (.valueError "Null file description.")) ∧
    (∀ v : VerFileConstructor.VersionStruct, v.product_ver = none → v.file_desc ≠ none →
        VerFileConstructor.fill_ver_info v = .error (.valueError "Null product version.")) ∧
    (∀ d pv, FileDetailsHandler.fill_version_data
        ⟨some d, none, none, none, none, none, some pv, none, none⟩ =
      .error (.valueError "Legal copyright is required.")) ∧
    (∀ v : FileDetailsHandler.FileDetails, v.file_desc = none →
        FileDetailsHandler.fill_version_data v =
          .error (.valueError "File description is required.")) ∧
    (∀ v : FileDetailsHandler.FileDetails, v.product_version = none →
        v.file_desc ≠ none → v.legal_copyright ≠ none →
        FileDetailsHandler.fill_version_data v =
          .error (.valueError "Product version is required.")) := by
  refine ⟨fun d pv => rfl, fun v hv => ?_, fun v hpv hfd => ?_, fun d pv => rfl,
    fun v hv => ?_, fun v hpv hfd hlc => ?_⟩
  · simp [VerFileConstructor.fill_ver_info, hv]
  · rcases h : v.file_desc with - | d
    · exact absurd h hfd
    · simp [VerFileConstructor.fill_ver_info, h, hpv]
  · simp [FileDetailsHandler.fill_version_data, hv]
  · rcases h : v.file_desc with - | d
    · exact absurd h hfd
    · rcases h2 : v.legal_copyright with - | lc
      · exact absurd h2 hlc
      · simp [FileDetailsHandler.fill_version_data, h, h2, hpv]

/-- Witness for C7 (amended): the filling steps evaluated on concrete
descriptors, discharging each hypothesis. -/
theorem c7_version_fill_defaults_and_required_witness :
    VerFileConstructor.fill_ver_info
        ⟨some "My App", none, none, none, none, none, some "1.2", none, none⟩ =
      .ok ⟨some "My App", some "1.0.0.0", some "My App",
           some "© Xiamen Tianma Display Technology. All rights reserved.",
           some ("My App".replace " " "_" ++ ".exe"), some "My App", some "1.2",
           some "Language Neutral", some "Xiamen Tianma Display Technology Co., Ltd."⟩ ∧
    VerFileConstructor.fill_ver_info
        ⟨none, none, none, none, none, none, some "1.2", none, none⟩ =
      .error (.valueError "Null file description.") ∧
    VerFileConstructor.fill_ver_info
        ⟨some "My App", none, none, none, none, none, none, none, none⟩ =
      .error (.valueError "Null product version.") ∧
    FileDetailsHandler.fill_version_data
        ⟨none, none, none, none, none, none, some "1.2", none, none⟩ =
      .error (.valueError "File description is required.") ∧
    FileDetailsHandler.fill_version_data
        ⟨some "My App", none, none, some "c", none, none, none, none, none⟩ =
      .error (.valueError "Product version is required.") :=
  ⟨c7_version_fill_defaults_and_required.1 "My App" "1.2",
   c7_version_fill_defaults_and_required.2.1 _ rfl,
   c7_version_fill_defaults_and_required.2.2.1 _ rfl (by simp),
   c7_version_fill_defaults_and_required.2.2.2.2.1 _ rfl,
   c7_version_fill_defaults_and_required.2.2.2.2.2 _ rfl (by simp) (by simp)⟩

/-- One `\x7b\x7d` placeholder substitution step over character lists:
every occurrence of the two-character placeholder is replaced by `rep`. -/
def pyFormatChars (rep : List Char) : List Char → List Char
  | [] => []
  | [c] => [c]
  | c1 :: c2 :: rest =>
    if c1 = '\x7b' ∧ c2 = '\x7d' then rep ++ pyFormatChars rep rest
    else c1 :: pyFormatChars rep (c2 :: rest)

/-- Python `template.format(arg)` for the profile templates, which carry
a single `\x7b\x7d` placeholder (§6 of the spec): the placeholder is
replaced by `str(arg)`, and `str(None)` is the text `None`. -/
def pyFormat1 (template : String) (arg : Option String) : String :=
  ⟨pyFormatChars (match arg with | none => "None".data | some s => s.data) template.data⟩

/-- Python `str.upper()` (ASCII uppercasing, as the machine ids are
ASCII). -/
def pyUpper (s : String) : String :=
  ⟨s.data.map Char.toUpper⟩

namespace RobocopySynchronizer

/-- Embeds the `RobocopyTaskParam` dataclass
(`robocopy_synchronizer.py` lines 20-27); every field defaults to
`None`. -/
structure RobocopyTaskParam where
  ident : Option String
  src_path : Option String
  dst_path : Option String
  exclude_files : Option (List String)
  exclude_dirs : Option (List String)
  log_path : Option String
deriving Repr, DecidableEq

/-- One `maps` entry of the robocopy profile, as read through
`map_json.get(...)` in `generate_archive_map`: every key may be
absent. -/
structure MapJson where
  id : Option String
  ip : Option String
  robocopy_src_path : Option String
  robocopy_dst_path : Option String
  robocopy_exclude_files : Option (List String)
  robocopy_exclude_dirs : Option (List String)
  robocopy_log_path : Option String
deriving Repr, DecidableEq

/-- Python `override or template.format(arg)` (line 61 of
`robocopy_synchronizer.py`): the override when truthy, else the global
template formatted with `arg`; `template.format` on a `None` template is
an `AttributeError`. -/
def fmt_or (override template arg : Option String) : Except PyErr String :=
  if strTruthy override then .ok (override.getD "")
  else
    match template with
    | none => .error (.attributeError "NoneType object has no attribute format")
    | some t => .ok (pyFormat1 t arg)

/-- Python `override or template.format(map_json.get("id").upper())`
(lines 62-67 of `robocopy_synchronizer.py`): as `fmt_or`, with the
upper-cased map id as the formatted argument; `.upper()` on a missing id
is an `AttributeError`. -/
def fmt_upper_or (override template : Option String) (m : MapJson) : Except PyErr String :=
  if strTruthy override then .ok (override.getD "")
  else
    match template with
    | none => .error (.attributeError "NoneType object has no attribute format")
    | some t =>
      match m.id with
      | none => .error (.attributeError "NoneType object has no attribute upper")
      | some i => .ok (pyFormat1 t (some (pyUpper i)))

/-- Embeds `RobocopySynchronizer.generate_archive_map`
(`robocopy_synchronizer.py` lines 57-68).  Note that the *source* path
fallback formats the global `src_path_fmt` with the value of the map key
`"ip"` (line 59/61), while the destination and log fallbacks format
their templates with the upper-cased map `"id"`. -/
def generate_archive_map (g : RobocopyTaskParam) (m : MapJson) :
    Except PyErr RobocopyTaskParam := do
  let src ← fmt_or m.robocopy_src_path g.src_path m.ip
  let dst ← fmt_upper_or m.robocopy_dst_path g.dst_path m
  let ef := if listTruthy m.robocopy_exclude_files then m.robocopy_exclude_files
            else g.exclude_files
  let ed := if listTruthy m.robocopy_exclude_dirs then m.robocopy_exclude_dirs
            else g.exclude_dirs
  let lg ← fmt_upper_or m.robocopy_log_path g.log_path m
  .ok ⟨m.id, some src, some dst, ef, ed, some lg⟩

end RobocopySynchronizer

/-- C10 (counterexample): a map carrying `id = "m1"` (and an `ip`) that
omits `robocopy_src_path` gets as its source path the global
`src_path_fmt` formatted with the *ip*, `"X10.0.0.5Y"`, which differs
from the template formatted with the machine id, `"Xm1Y"`. -/
theorem c10_src_path_not_id_substituted :
    RobocopySynchronizer.generate_archive_map
        ⟨none, some "X\x7b\x7dY", some "D\x7b\x7d", none, none, some "L\x7b\x7d"⟩
        ⟨some "m1", some "10.0.0.5", none, none, none, none, none⟩ =
      .ok ⟨some "m1", some "X10.0.0.5Y", some "DM1", none, none, some "LM1"⟩ ∧
    some "X10.0.0.5Y" ≠ some (pyFormat1 "X\x7b\x7dY" (some "m1")) := by
  exact ⟨rfl, by decide⟩

/-- C10 (amended): for every profile map entry that omits (or leaves
falsy) `robocopy_src_path`, the generated task parameter has as source
path the global `src_path_fmt` template formatted with the value of the
map entry's `"ip"` key (rendered as the text `None` when the key is
absent) — not with the machine id, which is substituted into the
destination and log templates instead. -/
theorem c10_src_path_uses_ip_field
    (g : RobocopySynchronizer.RobocopyTaskParam) (m : RobocopySynchronizer.MapJson)
    (fmt dstf logf i : String)
    (hsrc : strTruthy m.robocopy_src_path = false)
    (hfmt : g.src_path = some fmt)
    (hdst : g.dst_path = some dstf) (hlog : g.log_path = some logf)
    (hid : m.id = some i) :
    RobocopySynchronizer.generate_archive_map g m =
      .ok ⟨some i, some (pyFormat1 fmt m.ip),
        some (if strTruthy m.robocopy_dst_path then m.robocopy_dst_path.getD ""
          else pyFormat1 dstf (some (pyUpper i))),
        (if listTruthy m.robocopy_exclude_files then m.robocopy_exclude_files
          else g.exclude_files),
        (if listTruthy m.robocopy_exclude_dirs then m.robocopy_exclude_dirs
          else g.exclude_dirs),
        some (if strTruthy m.robocopy_log_path then m.robocopy_log_path.getD ""
          else pyFormat1 logf (some (pyUpper i)))⟩ := by
  obtain ⟨mid, mip, msrc, mdst, mef, med, mlg⟩ := m
  obtain ⟨gid, gsrc, gdst, gef, ged, glg⟩ := g
  simp only at hsrc hfmt hdst hlog hid
  subst hfmt hdst hlog hid
  cases hd : strTruthy mdst <;> cases hl : strTruthy mlg <;>
    · simp only [RobocopySynchronizer.generate_archive_map, RobocopySynchronizer.fmt_or,
        RobocopySynchronizer.fmt_upper_or, hsrc, hd, hl, Bool.false_eq_true, if_false,
        if_true]
      rfl

/-- Witness for C10 (amended): the map of the counterexample profile,
with every hypothesis discharged by evaluation. -/
theorem c10_src_path_uses_ip_field_witness :
    RobocopySynchronizer.generate_archive_map
        ⟨none, some "X\x7b\x7dY", some "D\x7b\x7d", none, none, some "L\x7b\x7d"⟩
        ⟨some "m1", some "10.0.0.5", none, none, none, none, none⟩ =
      .ok ⟨some "m1", some "X10.0.0.5Y", some "DM1", none, none, some "LM1"⟩ :=
  c10_src_path_uses_ip_field
    ⟨none, some "X\x7b\x7dY", some "D\x7b\x7d", none, none, some "L\x7b\x7d"⟩
    ⟨some "m1", some "10.0.0.5", none, none, none, none, none⟩
    "X\x7b\x7dY" "D\x7b\x7d" "L\x7b\x7d" "m1" rfl rfl rfl rfl rfl

namespace AppDataBackup

/-- The configuration and failure behaviour of one `AppDataBackup.run`:
`start_app_func` / `stop_app_func` are the optional hooks of
`AppDataBackupParam` (`app_data_backup.py` lines 24-28), with the `Bool`
recording whether executing that hook raises; the remaining flags record
whether each `DataBackup` lifecycle step raises when executed. -/
structure Env where
  start_app_func : Option Bool
  stop_app_func : Option Bool
  check_params_raises : Bool
  prepare_env_raises : Bool
  do_backup_raises : Bool
  check_backup_raises : Bool
  rotate_raises : Bool
deriving Repr, DecidableEq

/-- The observable lifecycle events of one run, in invocation order;
`startApp` / `stopApp` are recorded exactly when the corresponding hook
is executed. -/
inductive Ev where
  | checkParams
  | prepareEnv
  | stopApp
  | doBackup
  | checkBackup
  | rotateBackups
  | startApp
deriving Repr, DecidableEq

/-- The steps of `DataBackup.run` after `pre_backup`
(`data_backup.py` lines 122-125, with `post_backup` overridden by
`AppDataBackup.post_backup`, `app_data_backup.py` lines 58-60):
`do_backup`, `check_backup`, `rotate`, then `start_app`; `stopped` is
the value of `self._app_stopped` entering these steps.  Returns the
event trace, whether the run succeeded, and the final
`self._app_stopped`. -/
def run_after_pre_backup (env : Env) (stopped : Bool) (tr : List Ev) :
    List Ev × Bool × Bool :=
  if env.do_backup_raises then (tr ++ [.doBackup], false, stopped)
  else if env.check_backup_raises then (tr ++ [.doBackup, .checkBackup], false, stopped)
  else if env.rotate_raises then
    (tr ++ [.doBackup, .checkBackup, .rotateBackups], false, stopped)
  else
    match env.start_app_func with
    | some r =>
      if r then (tr ++ [.doBackup, .checkBackup, .rotateBackups, .startApp], false, stopped)
      else (tr ++ [.doBackup, .checkBackup, .rotateBackups, .startApp], true, false)
    | none => (tr ++ [.doBackup, .checkBackup, .rotateBackups], true, stopped)

/-- `DataBackup.run` as inherited by `AppDataBackup` (the
`super().run()` call of `app_data_backup.py` line 64): `check_params`,
`prepare_env`, then `pre_backup` — which is `AppDataBackup.pre_backup`
(lines 49-50), setting `self._app_stopped = self.stop_app()`; `stop_app`
(lines 43-47) executes the stop hook when configured and returns whether
it did — then the remaining steps. -/
def super_run (env : Env) : List Ev × Bool × Bool :=
  if env.check_params_raises then ([.checkParams], false, false)
  else if env.prepare_env_raises then ([.checkParams, .prepareEnv], false, false)
  else
    match env.stop_app_func with
    | some r =>
      if r then ([.checkParams, .prepareEnv, .stopApp], false, false)
      else run_after_pre_backup env true [.checkParams, .prepareEnv, .stopApp]
    | none => run_after_pre_backup env false [.checkParams, .prepareEnv]

/-- Embeds `AppDataBackup.run` (`app_data_backup.py` lines 62-69): calls
`super().run()`; when that raises and `self._app_stopped` is set, it
executes `self.start_app()` before the exception propagates (the start
hook runs whether or not it itself raises).  Returns the event trace and
whether the run succeeded. -/
def run (env : Env) : List Ev × Bool :=
  match super_run env with
  | (tr, true, _) => (tr, true)
  | (tr, false, stopped) =>
    if stopped then
      match env.start_app_func with
      | some _ => (tr ++ [.startApp], false)
      | none => (tr, false)
    else (tr, false)

end AppDataBackup

/-- C4: in every `AppDataBackup.run` in which the stop hook was invoked
and completed (so the application was actually stopped) and some later
lifecycle step — `do_backup`, `check_backup`, `rotate`, or the start
hook inside `post_backup` — raises, the run fails and the
start-application hook (configured, raising or not) is invoked before
the exception propagates. -/
theorem c4_backup_failure_restarts_app (env : AppDataBackup.Env) (s : Bool)
    (hstop : env.stop_app_func = some false)
    (hcp : env.check_params_raises = false)
    (hpe : env.prepare_env_raises = false)
    (hstart : env.start_app_func = some s)
    (hfail : (env.do_backup_raises || env.check_backup_raises ||
      env.rotate_raises || s) = true) :
    (AppDataBackup.run env).2 = false ∧ .startApp ∈ (AppDataBackup.run env).1 := by
  obtain ⟨sa, so, cp, pe, db, cb, ro⟩ := env
  simp only at hstop hcp hpe hstart
  subst hstop hcp hpe hstart
  cases db <;> cases cb <;> cases ro <;> cases s <;>
    simp_all [AppDataBackup.run, AppDataBackup.super_run, AppDataBackup.run_after_pre_backup]

/-- Witness for C4: a run whose backup step raises, with both hooks
configured and not raising. -/
theorem c4_backup_failure_restarts_app_witness :
    (AppDataBackup.run ⟨some false, some false, false, false, true, false, false⟩).2 = false ∧
    .startApp ∈ (AppDataBackup.run ⟨some false, some false, false, false, true, false, false⟩).1 :=
  c4_backup_failure_restarts_app ⟨some false, some false, false, false, true, false, false⟩
    false rfl rfl rfl rfl rfl

namespace HashUtil

/-- The filesystem state seen by `HashUtil` (`hash_util.py`): `files`
maps file paths to their byte contents, `dirs` lists directory paths,
and `walk` is the `os.walk` enumeration of the directory being hashed —
`(dirpath, filenames)` pairs, supplied as data because the OS
enumeration order is unspecified. -/
structure PyFs where
  files : List (String × List Nat)
  dirs : List String
  walk : List (String × List String)

/-- `os.path.isfile`. -/
def isfile (fs : PyFs) (p : String) : Bool :=
  fs.files.any (fun e => e.1 == p)

/-- `os.path.isdir`. -/
def isdir (fs : PyFs) (p : String) : Bool :=
  fs.dirs.any (fun d => d == p)

/-- `os.path.join` of a walk directory path and a file name. -/
def path_join (dp fn : String) : String :=
  dp ++ "/" ++ fn

/-- CPython `open(path, "rb", encoding=...)`: passing an `encoding`
argument together with a binary mode raises
`ValueError: binary mode doesn't take an encoding argument` before any
I/O happens; without one, the bytes of the file are available. -/
def open_rb_with_encoding (fs : PyFs) (path : String) (encoding : Option String) :
    Except PyErr (List Nat) :=
  match encoding with
  | some _ => .error (.valueError "binary mode does not take an encoding argument")
  | none =>
    match fs.files.find? (fun e => e.1 == path) with
    | some e => .ok e.2
    | none => .error (.fileNotFoundError path)

/-- Embeds `HashUtil.calculate_file_hash_digest` (`hash_util.py` lines
11-35): after the `isfile` check, line 30 opens the file as
`open(file_path, "rb", encoding="utf-8")`, and then streams the content
through the pluggable digest `alg` (`hashlib.new(hash_algorithm)`;
chunked updating equals digesting the whole content). -/
def calculate_file_hash_digest (alg : List Nat → List Nat) (fs : PyFs) (file_path : String) :
    Except PyErr (List Nat) :=
  if !isfile fs file_path then
    .error (.valueError ("The specified path is not a file: " ++ file_path))
  else do
    let content ← open_rb_with_encoding fs file_path (some "utf-8")
    .ok (alg content)

/-- Embeds `HashUtil.calculate_directory_hash` (`hash_util.py` lines
63-94): after the `isdir` check, it walks the tree, sorts the file
names within each directory, computes each file's digest with
`calculate_file_hash_digest`, and folds the digests into one running
hash object (equal to digesting their concatenation). -/
def calculate_directory_hash (alg : List Nat → List Nat) (fs : PyFs) (dir_path : String) :
    Except PyErr (List Nat) :=
  if !isdir fs dir_path then
    .error (.valueError ("The specified path is not a directory: " ++ dir_path))
  else do
    let files := fs.walk.flatMap
      (fun e => (List.insertionSort (· ≤ ·) e.2).map (path_join e.1))
    let digests ← files.mapM (calculate_file_hash_digest alg fs)
    .ok (alg digests.flatten)

end HashUtil

/-- C5 (code bug, failing input): for any digest algorithm, hashing a
directory containing even a single file raises `ValueError`, because
`calculate_file_hash_digest` opens each file with
`open(file_path, "rb", encoding="utf-8")` — a combination CPython
rejects — so the round-trip hash comparison of the claim can never be
evaluated on a non-empty directory, let alone hold. -/
theorem c5_directory_hash_raises_on_any_file (alg : List Nat → List Nat) :
    HashUtil.calculate_file_hash_digest alg
        ⟨[("d/a.txt", [104, 105])], ["d"], [("d", ["a.txt"])]⟩ "d/a.txt" =
      .error (.valueError "binary mode does not take an encoding argument") ∧
    HashUtil.calculate_directory_hash alg
        ⟨[("d/a.txt", [104, 105])], ["d"], [("d", ["a.txt"])]⟩ "d" =
      .error (.valueError "binary mode does not take an encoding argument") :=
  ⟨rfl, rfl⟩

namespace ThreadPoolTaskExecutor

/-- Embeds `ThreadPoolTaskExecutor.task_function_demo`
(`thread_pool_task_executor.py` lines 33-43): the demo task simply
returns its parameter.  Parameters live in `Option β`, with `none`
standing for Python `None`. -/
def task_function_demo (param : Option β) : Option β :=
  param

/-- Python `list.index(x)`: the index of the first element equal to
`x` (the embedded call sites only look up elements of the list). -/
def py_list_index [DecidableEq α] (l : List α) (x : α) : Nat :=
  l.findIdx (fun y => decide (y = x))

/-- The body of the `as_completed` loop of `concurrent_run_tasks`
(`thread_pool_task_executor.py` lines 148-161), processing the futures
in completion order `order` (each completed future recovers its
`task_data` from the submission map): the demo task raises nothing, so
`_handle_exception` re-raises nothing and `_fetch_result` returns the
task result; `_validate_result` raises `RuntimeError` on a `None`
result; `_get_task_index` is `self.params_demo.index(task_data)`
(lines 107-116), Python list `index`, i.e. the index of the *first*
element equal to `task_data`; the result is stored there. -/
def run_loop [DecidableEq β] (params : List (Option β)) :
    List (Fin params.length) → List (Option β) → Except PyErr (List (Option β))
  | [], results => .ok results
  | idx :: rest, results =>
    let task_data := params.get idx
    match task_function_demo task_data with
    | none => .error (.runtimeError "None result fetched from subtask")
    | some r =>
      run_loop params rest (results.set (py_list_index params task_data) (some r))

/-- Embeds `ThreadPoolTaskExecutor.concurrent_run_tasks`
(`thread_pool_task_executor.py` lines 130-170): `results` starts as
`[None] * task_count`, every submitted task is processed in completion
order, and the filled array is returned. -/
def concurrent_run_tasks [DecidableEq β] (params : List (Option β))
    (order : List (Fin params.length)) : Except PyErr (List (Option β)) :=
  run_loop params order (List.replicate params.length none)


/-- `py_list_index` on an element of a duplicate-free list is its
(unique) position. -/
theorem py_list_index_getElem [DecidableEq α] {l : List α} (h : l.Nodup) :
    ∀ (i : Nat) (hi : i < l.length), py_list_index l (l.get ⟨i, hi⟩) = i := by
  induction l with
  | nil => intro i hi; exact absurd hi (by simp)
  | cons a xs ihl =>
    intro i hi
    obtain ⟨ha, hxs⟩ := List.nodup_cons.mp h
    match i with
    | 0 => simp [py_list_index, List.findIdx_cons]
    | n + 1 =>
      have hmem : xs.get ⟨n, by simpa using hi⟩ ∈ xs := xs.get_mem _ _
      have hne : ¬ (a = xs.get ⟨n, by simpa using hi⟩) := fun hc => ha (hc ▸ hmem)
      simp only [py_list_index, List.findIdx_cons, List.get_eq_getElem, List.getElem_cons_succ,
        decide_eq_true_eq] at *
      simp [hne, ihl hxs n]

/-- The result array of `run_loop`, position by position: a position
holds its task result exactly when its index occurs in the processed
completion order, and is otherwise untouched.  Hypotheses: the
parameters are pairwise distinct and none is `None`. -/
theorem run_loop_getElem? [DecidableEq β] (params : List (Option β))
    (hnd : params.Nodup) (hnn : ∀ p ∈ params, p ≠ none) :
    ∀ (os : List (Fin params.length)) (acc : List (Option β)),
      acc.length = params.length →
      ∃ res, run_loop params os acc = .ok res ∧ res.length = params.length ∧
        ∀ j : Fin params.length,
          res[j.val]? = if j ∈ os then some (params.get j) else acc[j.val]? := by
  intro os
  induction os with
  | nil => exact fun acc hlen => ⟨acc, rfl, hlen, fun j => by simp⟩
  | cons idx rest ih =>
    intro acc hlen
    have hmem : params.get idx ∈ params := params.get_mem _ _
    have hidx : params.get idx ≠ none := hnn _ hmem
    obtain ⟨r, hr⟩ := Option.ne_none_iff_exists'.mp hidx
    have hindex : py_list_index params (some r) = idx.val := by
      rw [← hr]
      exact py_list_index_getElem hnd idx.val idx.isLt
    obtain ⟨res, hres, hreslen, hget⟩ :=
      ih (acc.set (py_list_index params (params.get idx)) (some r)) (by simpa using hlen)
    rw [hr] at hres
    refine ⟨res, ?_, hreslen, ?_⟩
    · simp only [run_loop, task_function_demo]
      rw [hr]
      exact hres
    · intro j
      rw [hget j, hr]
      by_cases hj : j ∈ rest
      · simp [hj]
      · by_cases hji : j = idx
        · subst hji
          have hjlt : j.val < acc.length := by rw [hlen]; exact j.isLt
          simp [hj, hindex, List.getElem?_set_self hjlt, hr]
          rw [← List.get_eq_getElem]
          exact hr.symm
        · have hne : py_list_index params (some r) ≠ j.val := by
            rw [hindex]
            exact fun hc => hji (Fin.ext hc.symm)
          simp [hj, hji, List.getElem?_set_ne hne]

end ThreadPoolTaskExecutor

/-- C2 (counterexample): two tasks submitted with *equal* parameters.
`_get_task_index` is `params_demo.index(task_data)`, which returns the
first matching position for both completed futures, so both results
land in slot 0 and slot 1 keeps its `None` placeholder — the returned
array is not `results[i] = result of task i`. -/
theorem c2_duplicate_params_break_ordering :
    ThreadPoolTaskExecutor.concurrent_run_tasks
        [some 0, some 0] [(0 : Fin 2), (1 : Fin 2)] = .ok [some (0 : Nat), none] ∧
    ([some 0, none] : List (Option Nat)) ≠
      [some 0, some 0].map ThreadPoolTaskExecutor.task_function_demo := by
  exact ⟨rfl, by decide⟩

/-- C2 (amended): for every task list with *pairwise distinct*, non-None
parameters and every completion order of the N submitted tasks (N ≥ 1),
`concurrent_run_tasks` returns the array whose i-th entry is the result
of the i-th originally submitted task, regardless of completion
order. -/
theorem c2_results_ordered_by_original_index {β : Type} [DecidableEq β]
    (params : List (Option β)) (order : List (Fin params.length))
    (hnd : params.Nodup) (hnn : ∀ p ∈ params, p ≠ none)
    (hperm : order.Perm (List.finRange params.length))
    (_hN : 1 ≤ params.length) :
    ThreadPoolTaskExecutor.concurrent_run_tasks params order =
      .ok (params.map ThreadPoolTaskExecutor.task_function_demo) := by
  obtain ⟨res, hres, hreslen, hget⟩ :=
    ThreadPoolTaskExecutor.run_loop_getElem? params hnd hnn order
      (List.replicate params.length none) (by simp)
  rw [ThreadPoolTaskExecutor.concurrent_run_tasks, hres]
  congr 1
  apply List.ext_getElem?
  intro i
  by_cases hi : i < params.length
  · have hj := hget ⟨i, hi⟩
    have hmem : (⟨i, hi⟩ : Fin params.length) ∈ order :=
      hperm.mem_iff.mpr (List.mem_finRange _)
    rw [if_pos hmem] at hj
    rw [hj]
    simp [ThreadPoolTaskExecutor.task_function_demo, List.getElem?_eq_getElem, hi]
  · rw [List.getElem?_eq_none (by omega : res.length ≤ i),
      List.getElem?_eq_none (by simpa using (by omega : params.length ≤ i))]

/-- Witness for C2 (amended): two distinct tasks completing in reverse
order still produce the results in submission order. -/
theorem c2_results_ordered_by_original_index_witness :
    ThreadPoolTaskExecutor.concurrent_run_tasks
        [some (1 : Nat), some 2] [(1 : Fin 2), (0 : Fin 2)] =
      .ok ([some 1, some 2].map ThreadPoolTaskExecutor.task_function_demo) :=
  c2_results_ordered_by_original_index [some 1, some 2] [(1 : Fin 2), (0 : Fin 2)]
    (by decide) (by decide) (by decide) (by decide)

namespace ModifyTimeGroupedCommitter

/-- Embeds the grouping loop of
`ModifyTimeGroupedCommitter.group_files_by_modify_time`
(`git_committer_modify_time_grouped.py` lines 106-123): walking the
(already sorted) `rest`, a file within `time_diff_sec` of the previous
file joins `current_group`, otherwise `current_group` is closed and a
new one starts; the final non-empty group is appended at the end. -/
def groupLoop (t : Int) : List (String × Int) → List (List (String × Int)) →
    List (String × Int) → Option Int → List (List (String × Int))
  | [], grouped, current, _ => if current.isEmpty then grouped else grouped ++ [current]
  | x :: rest, grouped, current, last =>
    match last with
    | none => groupLoop t rest grouped (current ++ [x]) (some x.2)
    | some lt =>
      if |x.2 - lt| ≤ t then groupLoop t rest grouped (current ++ [x]) (some x.2)
      else groupLoop t rest (grouped ++ [current]) [x] (some x.2)

/-- Embeds `ModifyTimeGroupedCommitter.group_files_by_modify_time`
(`git_committer_modify_time_grouped.py` lines 88-126): sort the file
list by modification time ascending (line 102, the stable Python sort),
then run the grouping loop with empty accumulators. -/
def group_files_by_modify_time (file_list : List (String × Int)) (time_diff_sec : Int) :
    List (List (String × Int)) :=
  groupLoop time_diff_sec (List.insertionSort timeLE file_list) [] [] none

/-- Flattening the grouping loop recovers the accumulated groups, the
current group and the unprocessed files, in order. -/
theorem groupLoop_flatten (t : Int) :
    ∀ (rest : List (String × Int)) (grouped : List (List (String × Int)))
      (current : List (String × Int)) (last : Option Int),
      (groupLoop t rest grouped current last).flatten =
        grouped.flatten ++ current ++ rest := by
  intro rest
  induction rest with
  | nil =>
    intro grouped current last
    by_cases h : current.isEmpty
    · simp [groupLoop, h, List.isEmpty_iff.mp h]
    · simp [groupLoop, h]
  | cons x rest ih =>
    intro grouped current last
    cases last with
    | none => simp [groupLoop, ih]
    | some lt =>
      by_cases h : |x.2 - lt| ≤ t
      · simp [groupLoop, h, ih]
      · simp [groupLoop, h, ih]

/-- Every group emitted by the grouping loop is non-empty and is a chain
of files each within `t` of its predecessor, provided the accumulators
already satisfy this and `last` is the time of the current group's last
file. -/
theorem groupLoop_groups_chain (t : Int) :
    ∀ (rest : List (String × Int)) (grouped : List (List (String × Int)))
      (current : List (String × Int)) (last : Option Int),
      (∀ g ∈ grouped, g ≠ [] ∧ g.Chain' (fun a b => |b.2 - a.2| ≤ t)) →
      current.Chain' (fun a b => |b.2 - a.2| ≤ t) →
      last = current.getLast?.map Prod.snd →
      ∀ g ∈ groupLoop t rest grouped current last,
        g ≠ [] ∧ g.Chain' (fun a b => |b.2 - a.2| ≤ t) := by
  intro rest
  induction rest with
  | nil =>
    intro grouped current last hg hc _hl g hmem
    by_cases h : current.isEmpty
    · rw [show groupLoop t [] grouped current last = grouped by simp [groupLoop, h]] at hmem
      exact hg g hmem
    · rw [show groupLoop t [] grouped current last = grouped ++ [current] by
        simp [groupLoop, h]] at hmem
      rcases List.mem_append.mp hmem with h1 | h2
      · exact hg g h1
      · have hgc : g = current := by simpa using h2
        subst hgc
        exact ⟨fun hne => by simp [hne] at h, hc⟩
  | cons x rest ih =>
    intro grouped current last hg hc hl
    cases last with
    | none =>
      have hcur : current = [] := by
        cases hq : current.getLast? with
        | none => exact List.getLast?_eq_none_iff.mp hq
        | some a => rw [hq] at hl; simp at hl
      subst hcur
      intro g hmem
      rw [show groupLoop t (x :: rest) grouped [] none =
        groupLoop t rest grouped [x] (some x.2) by simp [groupLoop]] at hmem
      exact ih grouped [x] (some x.2) hg (List.chain'_singleton x) (by simp) g hmem
    | some lt =>
      have hgl : ∃ cl, current.getLast? = some cl ∧ cl.2 = lt := by
        cases hq : current.getLast? with
        | none => rw [hq] at hl; simp at hl
        | some a =>
          rw [hq] at hl
          simp only [Option.map_some'] at hl
          exact ⟨a, rfl, (Option.some.inj hl).symm⟩
      obtain ⟨cl, hcl, hcl2⟩ := hgl
      have hcurne : current ≠ [] := by
        intro he; rw [he] at hcl; simp at hcl
      by_cases h : |x.2 - lt| ≤ t
      · intro g hmem
        rw [show groupLoop t (x :: rest) grouped current (some lt) =
          groupLoop t rest grouped (current ++ [x]) (some x.2) by simp [groupLoop, h]] at hmem
        refine ih grouped (current ++ [x]) (some x.2) hg ?_ (by simp) g hmem
        refine List.chain'_append.mpr ⟨hc, List.chain'_singleton x, ?_⟩
        intro a ha b hb
        rw [hcl] at ha
        simp only [Option.mem_def, Option.some.injEq] at ha
        simp only [List.head?_cons, Option.mem_def, Option.some.injEq] at hb
        subst ha
        subst hb
        rw [hcl2]
        exact h
      · intro g hmem
        rw [show groupLoop t (x :: rest) grouped current (some lt) =
          groupLoop t rest (grouped ++ [current]) [x] (some x.2) by
            simp [groupLoop, h]] at hmem
        refine ih (grouped ++ [current]) [x] (some x.2) ?_ (List.chain'_singleton x)
          (by simp) g hmem
        intro g2 hg2
        rcases List.mem_append.mp hg2 with h1 | h2
        · exact hg g2 h1
        · have hgc : g2 = current := by simpa using h2
          subst hgc
          exact ⟨hcurne, hc⟩

/-- Consecutive emitted groups are separated by a gap exceeding `t`:
whenever the loop closes a group, the first file of the next group was
more than `t` away from the closed group's last file. -/
theorem groupLoop_boundary_chain (t : Int) :
    ∀ (rest : List (String × Int)) (grouped : List (List (String × Int)))
      (current : List (String × Int)) (last : Option Int),
      last = current.getLast?.map Prod.snd →
      (current = [] → grouped = []) →
      List.Chain' (fun g h => ∀ a ∈ g.getLast?, ∀ b ∈ h.head?, ¬ |b.2 - a.2| ≤ t)
        (grouped ++ if current.isEmpty then [] else [current]) →
      List.Chain' (fun g h => ∀ a ∈ g.getLast?, ∀ b ∈ h.head?, ¬ |b.2 - a.2| ≤ t)
        (groupLoop t rest grouped current last) := by
  intro rest
  induction rest with
  | nil =>
    intro grouped current last _hl _hemp hb
    by_cases h : current.isEmpty
    · rw [show groupLoop t [] grouped current last = grouped by simp [groupLoop, h]]
      simpa [h] using hb
    · rw [show groupLoop t [] grouped current last = grouped ++ [current] by
        simp [groupLoop, h]]
      simpa [h] using hb
  | cons x rest ih =>
    intro grouped current last hl hemp hb
    cases last with
    | none =>
      have hcur : current = [] := by
        cases hq : current.getLast? with
        | none => exact List.getLast?_eq_none_iff.mp hq
        | some a => rw [hq] at hl; simp at hl
      have hgr : grouped = [] := hemp hcur
      subst hcur
      subst hgr
      rw [show groupLoop t (x :: rest) [] [] none =
        groupLoop t rest [] [x] (some x.2) by simp [groupLoop]]
      exact ih [] [x] (some x.2) (by simp) (by simp) (by simp)
    | some lt =>
      have hgl : ∃ cl, current.getLast? = some cl ∧ cl.2 = lt := by
        cases hq : current.getLast? with
        | none => rw [hq] at hl; simp at hl
        | some a =>
          rw [hq] at hl
          simp only [Option.map_some'] at hl
          exact ⟨a, rfl, (Option.some.inj hl).symm⟩
      obtain ⟨cl, hcl, hcl2⟩ := hgl
      have hcurne : current ≠ [] := by
        intro he; rw [he] at hcl; simp at hcl
      have hbe : List.Chain' (fun g h => ∀ a ∈ g.getLast?, ∀ b ∈ h.head?, ¬ |b.2 - a.2| ≤ t)
          (grouped ++ [current]) := by
        simpa [hcurne] using hb
      by_cases h : |x.2 - lt| ≤ t
      · rw [show groupLoop t (x :: rest) grouped current (some lt) =
          groupLoop t rest grouped (current ++ [x]) (some x.2) by simp [groupLoop, h]]
        refine ih grouped (current ++ [x]) (some x.2) (by simp) (by simp) ?_
        have hd := List.chain'_append.mp hbe
        rw [show (grouped ++ if (current ++ [x]).isEmpty = true then [] else [current ++ [x]]) =
          grouped ++ [current ++ [x]] by simp]
        refine List.chain'_append.mpr ⟨hd.1, List.chain'_singleton _, ?_⟩
        intro g1 hg1 g2 hg2
        simp only [List.head?_cons, Option.mem_def, Option.some.injEq] at hg2
        subst hg2
        have := hd.2.2 g1 hg1 current (by simp)
        intro a ha b hb2
        rw [List.head?_append] at hb2
        rcases hc : current.head? with - | ch
        · exact absurd hc (by simpa [List.head?_eq_none_iff] using hcurne)
        · rw [hc] at hb2
          simp only [Option.or_some, Option.mem_def, Option.some.injEq] at hb2
          subst hb2
          exact this a ha ch (by simp [hc])
      · rw [show groupLoop t (x :: rest) grouped current (some lt) =
          groupLoop t rest (grouped ++ [current]) [x] (some x.2) by simp [groupLoop, h]]
        refine ih (grouped ++ [current]) [x] (some x.2) (by simp) (by simp) ?_
        rw [show ((grouped ++ [current]) ++
            if ([x] : List (String × Int)).isEmpty = true then [] else [[x]]) =
          (grouped ++ [current]) ++ [[x]] by simp]
        refine List.chain'_append.mpr ⟨hbe, List.chain'_singleton _, ?_⟩
        intro g1 hg1 g2 hg2
        simp only [List.head?_cons, Option.mem_def, Option.some.injEq] at hg2
        subst hg2
        rw [List.getLast?_concat] at hg1
        simp only [Option.mem_def, Option.some.injEq] at hg1
        subst hg1
        intro a ha b hb2
        rw [hcl] at ha
        simp only [Option.mem_def, Option.some.injEq] at ha
        simp only [List.head?_cons, Option.mem_def, Option.some.injEq] at hb2
        subst ha
        subst hb2
        rw [hcl2]
        exact h

end ModifyTimeGroupedCommitter

/-- C1: `group_files_by_modify_time` sorts the files by modification
time ascending and partitions that sorted list into consecutive
non-empty groups — flattening the groups gives back exactly the sorted
list (a permutation of the input) — such that within a group each file
is within `t` of its predecessor, while consecutive groups are
separated by a gap exceeding `t`; and on modification times
`[0, 10, 3650, 3660]` with threshold `3600` it returns exactly the two
groups `[0, 10]` and `[3650, 3660]`. -/
theorem c1_group_files_by_modify_time_spec (file_list : List (String × Int)) (t : Int) :
    (ModifyTimeGroupedCommitter.group_files_by_modify_time file_list t).flatten =
        List.insertionSort timeLE file_list ∧
    ((ModifyTimeGroupedCommitter.group_files_by_modify_time file_list t).flatten).Perm
        file_list ∧
    List.Sorted timeLE
        (ModifyTimeGroupedCommitter.group_files_by_modify_time file_list t).flatten ∧
    (∀ g ∈ ModifyTimeGroupedCommitter.group_files_by_modify_time file_list t,
        g ≠ [] ∧ g.Chain' (fun a b => |b.2 - a.2| ≤ t)) ∧
    (ModifyTimeGroupedCommitter.group_files_by_modify_time file_list t).Chain'
        (fun g h => ∀ a ∈ g.getLast?, ∀ b ∈ h.head?, ¬ |b.2 - a.2| ≤ t) ∧
    ModifyTimeGroupedCommitter.group_files_by_modify_time
        [("a", 0), ("b", 10), ("c", 3650), ("d", 3660)] 3600 =
      [[("a", 0), ("b", 10)], [("c", 3650), ("d", 3660)]] := by
  have hfl : (ModifyTimeGroupedCommitter.group_files_by_modify_time file_list t).flatten =
      List.insertionSort timeLE file_list := by
    simpa using ModifyTimeGroupedCommitter.groupLoop_flatten t
      (List.insertionSort timeLE file_list) [] [] none
  refine ⟨hfl, ?_, ?_, ?_, ?_, ?_⟩
  · rw [hfl]
    exact List.perm_insertionSort timeLE file_list
  · rw [hfl]
    exact List.sorted_insertionSort timeLE file_list
  · exact ModifyTimeGroupedCommitter.groupLoop_groups_chain t
      (List.insertionSort timeLE file_list) [] [] none (by simp) (by simp) (by simp)
  · exact ModifyTimeGroupedCommitter.groupLoop_boundary_chain t
      (List.insertionSort timeLE file_list) [] [] none (by simp) (by simp) (by simp)
  · decide

/-- Witness for C1: the grouping evaluated on the boundary example of
the claim. -/
theorem c1_group_files_by_modify_time_spec_witness :
    (ModifyTimeGroupedCommitter.group_files_by_modify_time
        [("a", 0), ("b", 10), ("c", 3650), ("d", 3660)] 3600).flatten =
      List.insertionSort timeLE [("a", 0), ("b", 10), ("c", 3650), ("d", 3660)] ∧
    ModifyTimeGroupedCommitter.group_files_by_modify_time
        [("a", 0), ("b", 10), ("c", 3650), ("d", 3660)] 3600 =
      [[("a", 0), ("b", 10)], [("c", 3650), ("d", 3660)]] :=
  ⟨(c1_group_files_by_modify_time_spec
      [("a", 0), ("b", 10), ("c", 3650), ("d", 3660)] 3600).1,
   (c1_group_files_by_modify_time_spec
      [("a", 0), ("b", 10), ("c", 3650), ("d", 3660)] 3600).2.2.2.2.2⟩

/-- `pyStartsWith` holds whenever the characters of `a` are a list
prefix of those of `s`. -/
theorem pyStartsWith_of_prefix {a s : String} (h : a.data <+: s.data) :
    pyStartsWith s a = true := by
  simpa [pyStartsWith, List.isPrefixOf_iff_prefix] using h

/-- Deleting a list of paths one by one (`FsUtil.remove_path` in the
rotation loop) filters out exactly the entries named in the list. -/
theorem DataBackup.foldl_remove_path :
    ∀ (names : List String) (d : DataBackup.DirListing),
      names.foldl DataBackup.remove_path d =
        d.filter (fun e => decide (e.1 ∉ names)) := by
  intro names
  induction names with
  | nil => intro d; simp
  | cons n ns ih =>
    intro d
    rw [List.foldl_cons, ih, DataBackup.remove_path, List.filter_filter]
    congr 1
    funext e
    by_cases h1 : e.1 = n <;> by_cases h2 : e.1 ∈ ns <;> simp [h1, h2]

/-- C3: with retention `max_backups_num = N ≥ 0`, a configured non-empty
prefix, format `zip`, and `N + k` (`k ≥ 1`) pre-existing prefixed files
in the destination (distinct names, pairwise distinct prefixed
modification times, all older than the new backup written at time
`now`, and no name collision with the new backup), one `DataBackup.run`
succeeds and leaves exactly `N` prefixed files; every remaining prefixed
file other than the new backup is older than it; when `N ≥ 1` the new
backup is among the remaining files (so the newest remaining file is
the backup just created); and every deleted prefixed file is older than
every remaining prefixed file. -/
theorem c3_backup_rotation
    (p : DataBackup.Param) (dir : DataBackup.DirListing)
    (src_basename stamp : String) (now : Int) (pfx : String) (N : Int) (k : Nat)
    (hp : p.backup_file_name_pfx = some pfx)
    (hpe : pfx.isEmpty = false)
    (hN : p.max_backups_num = some N)
    (hN0 : 0 ≤ N)
    (hfmt : p.compress_fmt = "zip")
    (hfresh : ∀ e ∈ dir, e.1 ≠ DataBackup.construct_backup_name p src_basename stamp)
    (hnodup : (dir.map Prod.fst).Nodup)
    (hcount : (dir.filter (DataBackup.has_pfx pfx)).length = N.toNat + k)
    (hk : 1 ≤ k)
    (hnew : ∀ e ∈ dir, DataBackup.has_pfx pfx e = true → e.2 < now)
    (htimes : (dir.filter (DataBackup.has_pfx pfx)).Pairwise (fun a b => a.2 ≠ b.2)) :
    ∃ dir2, DataBackup.run p true dir src_basename stamp now =
        .ok (dir2, DataBackup.construct_backup_name p src_basename stamp) ∧
      (dir2.filter (DataBackup.has_pfx pfx)).length = N.toNat ∧
      (∀ e ∈ dir2, DataBackup.has_pfx pfx e = true →
        e ≠ (DataBackup.construct_backup_name p src_basename stamp, now) → e.2 < now) ∧
      (1 ≤ N → (DataBackup.construct_backup_name p src_basename stamp, now) ∈ dir2) ∧
      (∀ e ∈ dir, DataBackup.has_pfx pfx e = true → e ∉ dir2 →
        ∀ r ∈ dir2, DataBackup.has_pfx pfx r = true → e.2 < r.2) := by
  have hpfxeq : DataBackup.construct_backup_name_pfx p src_basename = pfx := by
    simp [DataBackup.construct_backup_name_pfx, hp, hpe]
  set nn := DataBackup.construct_backup_name p src_basename stamp with hdefnn
  have hnewP : DataBackup.has_pfx pfx (nn, now) = true := by
    rw [hdefnn]
    simp only [DataBackup.has_pfx]
    apply pyStartsWith_of_prefix
    rw [DataBackup.construct_backup_name, hpfxeq]
    simp only [String.data_append, List.append_assoc]
    exact List.prefix_append _ _
  have hcp : DataBackup.check_params p true = .ok () := by
    simp [DataBackup.check_params, hN, Int.not_lt.mpr hN0]
  have hcb : DataBackup.check_backup p = .ok () := by
    simp [DataBackup.check_backup, hfmt]
  have hrun : DataBackup.run p true dir src_basename stamp now =
      .ok (DataBackup.rotate (some N) (DataBackup.do_backup_listing dir nn now) pfx, nn) := by
    simp only [DataBackup.run, hcp, hcb, hN, hpfxeq, ← hdefnn]
    rfl
  have hdir1 : DataBackup.do_backup_listing dir nn now = dir ++ [(nn, now)] := by
    rw [DataBackup.do_backup_listing, DataBackup.remove_path, List.filter_eq_self.mpr]
    intro e he
    simpa using hfresh e he
  rw [hdir1] at hrun
  have hpfx1 : (dir ++ [(nn, now)]).filter (DataBackup.has_pfx pfx) =
      dir.filter (DataBackup.has_pfx pfx) ++ [(nn, now)] := by
    rw [List.filter_append]
    simp [hnewP]
  have hSperm := List.perm_insertionSort timeLE
    ((dir ++ [(nn, now)]).filter (DataBackup.has_pfx pfx))
  have hSsort := List.sorted_insertionSort timeLE
    ((dir ++ [(nn, now)]).filter (DataBackup.has_pfx pfx))
  set S := List.insertionSort timeLE
    ((dir ++ [(nn, now)]).filter (DataBackup.has_pfx pfx)) with hdefS
  have hSpermA : S.Perm (dir.filter (DataBackup.has_pfx pfx) ++ [(nn, now)]) :=
    hpfx1 ▸ hSperm
  have hlen1 : ((dir ++ [(nn, now)]).filter (DataBackup.has_pfx pfx)).length =
      N.toNat + k + 1 := by
    rw [hpfx1, List.length_append, hcount]
    simp
  have hSlen : S.length = N.toNat + k + 1 := hSperm.length_eq.trans hlen1
  have hrot : DataBackup.rotate (some N) (dir ++ [(nn, now)]) pfx =
      ((S.take (k + 1)).map Prod.fst).foldl DataBackup.remove_path (dir ++ [(nn, now)]) := by
    simp only [DataBackup.rotate, DataBackup.list_backups, ← hdefS]
    have htoN := Int.toNat_of_nonneg hN0
    rw [if_neg]
    · have hdel : ((((S.map Prod.fst).length : Nat) : Int) - N).toNat = k + 1 := by
        rw [List.length_map, hSlen]
        omega
      rw [hdel, ← List.map_take]
    · rw [List.length_map, hSlen]
      omega
  rw [hrot, DataBackup.foldl_remove_path] at hrun
  set delN := (S.take (k + 1)).map Prod.fst with hdefdelN
  set dir2 := (dir ++ [(nn, now)]).filter (fun e => decide (e.1 ∉ delN)) with hdefdir2
  have hSsplit : S.take (k + 1) ++ S.drop (k + 1) = S := List.take_append_drop _ _
  have hnodup1 : ((dir ++ [(nn, now)]).map Prod.fst).Nodup := by
    rw [List.map_append, List.nodup_append]
    refine ⟨hnodup, List.nodup_singleton _, ?_⟩
    intro a ha hb
    simp only [List.map_cons, List.map_nil, List.mem_singleton] at hb
    subst hb
    obtain ⟨e, he, he1⟩ := List.mem_map.mp ha
    exact hfresh e he he1
  have hnodupP : (((dir ++ [(nn, now)]).filter (DataBackup.has_pfx pfx)).map Prod.fst).Nodup :=
    List.Nodup.sublist ((List.filter_sublist _).map _) hnodup1
  have hSnodup : (S.map Prod.fst).Nodup :=
    (List.Perm.nodup_iff (hSperm.map _)).mpr hnodupP
  have hsplitnames : (S.take (k + 1)).map Prod.fst ++ (S.drop (k + 1)).map Prod.fst =
      S.map Prod.fst := by
    rw [← List.map_append, hSsplit]
  have hdisj : ∀ a ∈ S.take (k + 1), ∀ b ∈ S.drop (k + 1), a.1 ≠ b.1 := by
    intro a ha b hb hc
    have h1 : a.1 ∈ (S.take (k + 1)).map Prod.fst := List.mem_map_of_mem _ ha
    have h2 : a.1 ∈ (S.drop (k + 1)).map Prod.fst := by
      rw [hc]
      exact List.mem_map_of_mem _ hb
    exact (List.nodup_append.mp (hsplitnames.symm ▸ hSnodup)).2.2 h1 h2
  have hmemS : ∀ e : String × Int,
      e ∈ S ↔ e ∈ dir.filter (DataBackup.has_pfx pfx) ++ [(nn, now)] :=
    fun e => hSpermA.mem_iff
  have htakeNames : ∀ a ∈ S.take (k + 1), a.1 ∈ delN := by
    intro a ha
    rw [hdefdelN]
    exact List.mem_map_of_mem _ ha
  have hdropNames : ∀ b ∈ S.drop (k + 1), b.1 ∉ delN := by
    intro b hb hmem
    rw [hdefdelN] at hmem
    obtain ⟨a, ha, ha1⟩ := List.mem_map.mp hmem
    exact hdisj a ha b hb ha1
  have hA : (dir2.filter (DataBackup.has_pfx pfx)).Perm (S.drop (k + 1)) := by
    have h1 : dir2.filter (DataBackup.has_pfx pfx) =
        ((dir ++ [(nn, now)]).filter (DataBackup.has_pfx pfx)).filter
          (fun e => decide (e.1 ∉ delN)) := by
      rw [hdefdir2, List.filter_filter, List.filter_filter]
      congr 1
      funext e
      rw [Bool.and_comm]
    have ht : (S.take (k + 1)).filter (fun e => decide (e.1 ∉ delN)) = [] :=
      List.filter_eq_nil_iff.mpr (fun a ha => by simp [htakeNames a ha])
    have hd : (S.drop (k + 1)).filter (fun e => decide (e.1 ∉ delN)) = S.drop (k + 1) :=
      List.filter_eq_self.mpr (fun b hb => by simpa using hdropNames b hb)
    have h3 : S.filter (fun e => decide (e.1 ∉ delN)) = S.drop (k + 1) := by
      conv_lhs => rw [← hSsplit]
      rw [List.filter_append, ht, hd, List.nil_append]
    rw [h1, ← h3]
    exact (hSperm.filter _).symm
  refine ⟨dir2, hrun, ?_, ?_, ?_, ?_⟩
  · rw [hA.length_eq, List.length_drop, hSlen]
    omega
  · intro e he hPe hne
    have he1 : e ∈ dir ++ [(nn, now)] := by
      rw [hdefdir2] at he
      exact List.mem_of_mem_filter he
    have he2 : e ∈ dir.filter (DataBackup.has_pfx pfx) ++ [(nn, now)] := by
      rw [← hpfx1]
      exact List.mem_filter.mpr ⟨he1, hPe⟩
    rcases List.mem_append.mp he2 with h | h
    · exact hnew e (List.mem_of_mem_filter h) hPe
    · simp only [List.mem_singleton] at h
      exact absurd h hne
  · intro hN1
    have hmm : (nn, now) ∈ S := (hmemS _).mpr (by simp)
    rcases List.mem_append.mp (hSsplit.symm ▸ hmm) with htk | hdr
    · exfalso
      have htoN := Int.toNat_of_nonneg hN0
      have hlendrop : 0 < (S.drop (k + 1)).length := by
        rw [List.length_drop, hSlen]
        omega
      obtain ⟨b, hb⟩ := List.exists_mem_of_length_pos hlendrop
      have hsp : List.Pairwise timeLE (S.take (k + 1) ++ S.drop (k + 1)) := by
        rw [hSsplit]
        exact hSsort
      have hle : timeLE (nn, now) b := (List.pairwise_append.mp hsp).2.2 _ htk _ hb
      have hbS : b ∈ S := List.drop_subset _ _ hb
      rcases List.mem_append.mp ((hmemS b).mp hbS) with hbD | hbNew
      · have hlt : b.2 < now := hnew b (List.mem_of_mem_filter hbD) ((List.mem_filter.mp hbD).2)
        have hge : now ≤ b.2 := hle
        omega
      · simp only [List.mem_singleton] at hbNew
        subst hbNew
        exact hdisj _ htk _ hb rfl
    · have hmem2 : (nn, now) ∈ dir2.filter (DataBackup.has_pfx pfx) := hA.mem_iff.mpr hdr
      exact List.mem_of_mem_filter hmem2
  · intro e he hPe hnot r hr hPr
    have heF : e ∈ dir.filter (DataBackup.has_pfx pfx) ++ [(nn, now)] :=
      List.mem_append_left _ (List.mem_filter.mpr ⟨he, hPe⟩)
    have heS : e ∈ S := (hmemS e).mpr heF
    have hrX : r ∈ dir2.filter (DataBackup.has_pfx pfx) := List.mem_filter.mpr ⟨hr, hPr⟩
    have hrD : r ∈ S.drop (k + 1) := hA.mem_iff.mp hrX
    rcases List.mem_append.mp (hSsplit.symm ▸ heS) with htk | hdr
    · have hsp : List.Pairwise timeLE (S.take (k + 1) ++ S.drop (k + 1)) := by
        rw [hSsplit]
        exact hSsort
      have hle : timeLE e r := (List.pairwise_append.mp hsp).2.2 _ htk _ hrD
      have hpw1 : List.Pairwise (fun a b : String × Int => a.2 ≠ b.2)
          (dir.filter (DataBackup.has_pfx pfx) ++ [(nn, now)]) := by
        rw [List.pairwise_append]
        refine ⟨htimes, List.pairwise_singleton _ _, ?_⟩
        intro a ha b hb
        simp only [List.mem_singleton] at hb
        subst hb
        exact Int.ne_of_lt (hnew a (List.mem_of_mem_filter ha) ((List.mem_filter.mp ha).2))
      have hpwS : List.Pairwise (fun a b : String × Int => a.2 ≠ b.2) S :=
        (hSpermA.pairwise_iff (fun hxy => Ne.symm hxy)).mpr hpw1
      have hsp2 : List.Pairwise (fun a b : String × Int => a.2 ≠ b.2)
          (S.take (k + 1) ++ S.drop (k + 1)) := by
        rw [hSsplit]
        exact hpwS
      have hne2 := (List.pairwise_append.mp hsp2).2.2 _ htk _ hrD
      have hle2 : e.2 ≤ r.2 := hle
      omega
    · exfalso
      have hmem2 : e ∈ dir2.filter (DataBackup.has_pfx pfx) := hA.mem_iff.mpr hdr
      exact hnot (List.mem_of_mem_filter hmem2)

/-- Witness for C3: retention 1 with two pre-existing prefixed backups
and one unrelated file; the run deletes the two old backups and keeps
the new one. -/
theorem c3_backup_rotation_witness :
    DataBackup.run ⟨"srv/data", "backups", some "b_", some 1, "zip", none⟩ true
        [("b_1", 10), ("other", 5), ("b_2", 20)] "data" "X" 30 =
      .ok ([("other", 5), ("b_X.zip", 30)],
        DataBackup.construct_backup_name
          ⟨"srv/data", "backups", some "b_", some 1, "zip", none⟩ "data" "X") ∧
    (([("other", 5), ("b_X.zip", 30)] : DataBackup.DirListing).filter
      (DataBackup.has_pfx "b_")).length = (1 : Int).toNat := by
  obtain ⟨dir2, hrun, hlen, -, -, -⟩ := c3_backup_rotation
    ⟨"srv/data", "backups", some "b_", some 1, "zip", none⟩
    [("b_1", 10), ("other", 5), ("b_2", 20)] "data" "X" 30 "b_" 1 1
    rfl rfl rfl (by decide) rfl (by decide) (by decide) (by decide) (by decide)
    (by decide) (by decide)
  have hconc : DataBackup.run ⟨"srv/data", "backups", some "b_", some 1, "zip", none⟩ true
      [("b_1", 10), ("other", 5), ("b_2", 20)] "data" "X" 30 =
      .ok ([("other", 5), ("b_X.zip", 30)], "b_X.zip") := rfl
  have hdir2 : dir2 = [("other", 5), ("b_X.zip", 30)] :=
    ((Prod.ext_iff.mp (Except.ok.inj (hconc.symm.trans hrun))).1).symm
  exact ⟨hconc, hdir2 ▸ hlen⟩
